import Mathlib

/-!
Shallow embedding of the memory-storage MCP servers
(`PostgresMCPServer` and parts of `MilvusMCPServer`).

External collaborators (the pg driver, the Milvus client, the embedding
capability `embedText`, and `JSON.parse`) are modelled as oracle inputs in an
environment record; the server's own control flow, validation, result shaping
and error handling are translated from the source.  JavaScript numbers that
carry scores, distances and limits are modelled as rationals; machine
timestamps as naturals.
-/

namespace SimplePostgresMCP

/-- Model of a JSON-representable JavaScript value (metadata, payloads). -/
inductive Json where
  | null : Json
  | bool (b : Bool) : Json
  | num (q : ℚ) : Json
  | str (s : String) : Json
  | arr (xs : List Json) : Json
  | obj (kvs : List (String × Json)) : Json

/-- The empty JSON object, the default metadata value. -/
def emptyObj : Json := Json.obj []

/-- JavaScript truthiness of a JSON value: `null`, `false`, `0` and the empty
string are falsy; every object and array (even empty) is truthy. -/
def Json.truthy : Json → Bool
  | .null => false
  | .bool b => b
  | .num q => decide (q ≠ 0)
  | .str s => decide (s ≠ "")
  | .arr _ => true
  | .obj _ => true

/-- Whether a JSON value is a top-level string (JS `typeof x === 'string'`). -/
def Json.isStr : Json → Bool
  | .str _ => true
  | _ => false

/-- JavaScript `x || y` on an optional JSON value: `undefined` or a falsy
value yields the default. -/
def jsOrElse (x : Option Json) (dflt : Json) : Json :=
  match x with
  | some v => if v.truthy then v else dflt
  | none => dflt

/-- Whether the character list `needle` is a prefix of `hay`. -/
def startsWith : List Char → List Char → Bool
  | [], _ => true
  | _ :: _, [] => false
  | a :: as, b :: bs => a = b && startsWith as bs

/-- Whether `needle` occurs as a contiguous sublist of `hay`. -/
def hasSub (needle : List Char) : List Char → Bool
  | [] => startsWith needle []
  | c :: cs => startsWith needle (c :: cs) || hasSub needle cs

/-- Model of JavaScript `hay.includes(needle)`. -/
def strContains (hay needle : String) : Bool :=
  hasSub needle.toList hay.toList

/-- Distance-to-similarity conversion used by semantic search:
`similarity = 1.0 / (1.0 + distance)`. -/
def similarityOfDistance (d : ℚ) : ℚ := 1 / (1 + d)

/-- Model of `const limit = args.limit || 10`: an absent or falsy (zero)
limit becomes 10. -/
def resolveLimit (limit : Option ℚ) : ℚ :=
  match limit with
  | some l => if l = 0 then 10 else l
  | none => 10

/-- Model of `const mode = args.mode || 'semantic'`. -/
def resolveMode (mode : Option String) : String :=
  match mode with
  | some m => if m = "" then "semantic" else m
  | none => "semantic"

/-- Validation of the table name against `/^[a-zA-Z_][a-zA-Z0-9_]*$/`
(`ensureTable`, "Validate table name to prevent SQL injection"). -/
def isValidTableName (s : String) : Bool :=
  match s.toList with
  | [] => false
  | c :: cs => (c.isAlpha || c = '_') && cs.all (fun d => d.isAlphanum || d = '_')

/-- After the digits of a memory id: consume further digits, then expect an
underscore followed by the suffix. -/
def idDigitsLoop : List Char → Bool
  | [] => false
  | '_' :: cs => !cs.isEmpty && cs.all (fun c => c.isDigit || ('a' ≤ c && c ≤ 'z'))
  | c :: cs => c.isDigit && idDigitsLoop cs

/-- Validation of a memory id against `/^mem_\d+_[a-z0-9]+$/`
(`forgetMemory`). -/
def isValidMemoryId (s : String) : Bool :=
  match s.toList with
  | 'm' :: 'e' :: 'm' :: '_' :: c :: cs => c.isDigit && idDigitsLoop (c :: cs)
  | _ => false

/-- The shape in which a stored row's `metadata_json` cell reaches the
result-mapping code: absent, a raw string, or an already-parsed value. -/
inductive MetaCell where
  | absent : MetaCell
  | strCell (s : String) : MetaCell
  | valCell (j : Json) : MetaCell

/-- One row of a collection table: `id, content, embedding, metadata_json,
created_at`.  The `content_fts` column is derived by the backend and never
read by the server code, so it is not part of the row model. -/
structure Row where
  id : String
  content : String
  embedding : List ℚ
  metadata_json : MetaCell
  created_at : ℕ

/-- One provisioned table: the vector dimension fixed at creation plus the
stored rows. -/
structure PGTable where
  dim : ℕ
  rows : List Row

/-- The database: an association of table names to tables. -/
structure DB where
  tables : List (String × PGTable)

/-- Server-visible mutable state: the database plus the number of pool
connections currently held (checked out and not yet released). -/
structure ServerState where
  db : DB
  held : ℕ

/-- The individual backend query sites of the Postgres server. -/
inductive QSite where
  | connect : QSite
  | checkTable : QSite
  | createTable : QSite
  | createFtsIndex : QSite
  | createVecIndex : QSite
  | insertRow : QSite
  | searchQuery : QSite
  | checkTableForget : QSite
  | checkMemory : QSite
  | deleteRow : QSite
  deriving DecidableEq

/-- Oracle environment for one invocation: outcomes of the external
collaborators (pool, query engine, embedding capability, `JSON.parse`,
clock and RNG). -/
structure Env where
  connectOk : Bool
  queryOk : QSite → Bool
  embed : Except String (List ℚ)
  now : ℕ
  randSuffix : String
  jsonParse : String → Option Json
  semanticRows : List ℚ → ℚ → List (Row × ℚ)
  fulltextRows : String → ℚ → List (Row × ℚ)

/-- Environment in which every backend interaction succeeds. -/
def envOk (env : Env) : Prop :=
  env.connectOk = true ∧ ∀ q, env.queryOk q = true

/-- The backend call sites of the Milvus server's forget/ensure path. -/
inductive MSite where
  | hasCollection : MSite
  | createCollection : MSite
  | loadCollection : MSite
  | queryIds : MSite
  | deleteIds : MSite
  deriving DecidableEq

/-- Classified errors thrown inside an operation, before the catch-all
converts them into the response envelope. -/
inductive OpError where
  | tableNameRequired : OpError
  | collectionRequired : OpError
  | invalidTableName : OpError
  | unknownModel (model : String) (available : List String) : OpError
  | embedCredentials (model : String) (orig : String) : OpError
  | embedFailed (model : String) (orig : String) : OpError
  | backendFailure (site : QSite) : OpError
  | milvusBackendFailure (site : MSite) : OpError
  | invalidIdFormat (got : Option String) : OpError
  | collectionNotFound (name : Option String) : OpError
  | memoryNotFound (id : String) (name : Option String) : OpError
  | unknownSearchMode (mode : String) : OpError
  deriving DecidableEq

/-- Rendering of an optional string the way a JS template literal renders
a possibly-undefined value. -/
def renderOptStr : Option String → String
  | some s => s
  | none => "undefined"

/-- The human-readable message carried by each classified error, following
the message templates in the source. -/
def OpError.message : OpError → String
  | .tableNameRequired =>
      "Table name is required either as argument or default"
  | .collectionRequired =>
      "Collection name is required either as argument or default"
  | .invalidTableName =>
      "Invalid table name. Must start with letter/underscore and contain only alphanumeric characters and underscores"
  | .unknownModel m avail =>
      "Model '" ++ m ++ "' not found in EMBEDDING_DIMENSIONS. Available models: " ++ String.intercalate (", ") avail
  | .embedCredentials m orig =>
      "API key not configured for embedding model " ++ m ++ ". Please set the appropriate environment variable (e.g., GEMINI_API_KEY for Google models, OPENAI_API_KEY for OpenAI models). Original error: " ++ orig
  | .embedFailed m orig =>
      "Failed to generate embedding with " ++ m ++ ": " ++ orig
  | .backendFailure _ =>
      "backend failure"
  | .milvusBackendFailure _ =>
      "backend failure"
  | .invalidIdFormat got =>
      "Invalid memory ID format. Expected format: mem_timestamp_randomstring, got: " ++ renderOptStr got
  | .collectionNotFound name =>
      "Collection \"" ++ renderOptStr name ++ "\" does not exist"
  | .memoryNotFound i name =>
      "Memory with ID \"" ++ i ++ "\" not found in collection \"" ++ renderOptStr name ++ "\""
  | .unknownSearchMode m =>
      "Unknown search mode: " ++ m

/-- Server construction data: fixed default collection, the embedding model
(after the `embeddingModel || DEFAULT_EMBEDDING_MODEL` fallback), and the
`EMBEDDING_DIMENSIONS` registry imported from the embedding library. -/
structure Config where
  fixedCollection : Option String
  embeddingModel : String
  dims : List (String × ℕ)

/-- Model of `getCollectionName`: `args.collection || this.fixedCollection`. -/
def getCollectionName (argCollection : Option String) (cfg : Config) : Option String :=
  match argCollection with
  | some s => if s = "" then cfg.fixedCollection else some s
  | none => cfg.fixedCollection

/-- Result-row metadata handling: a string cell is `JSON.parse`d (a parse
failure degrades to the empty object); any other value is taken as-is when
truthy and degrades to the empty object otherwise. -/
def parseRowMetadata (jp : String → Option Json) : MetaCell → Json
  | .absent => emptyObj
  | .strCell s => (jp s).getD emptyObj
  | .valCell j =>
      match j with
      | .str s => (jp s).getD emptyObj
      | _ => if j.truthy then j else emptyObj

/-- Model of `generateEmbedding`: classify an embedding failure by whether
its message mentions a missing API key. -/
def generateEmbedding (cfg : Config) (env : Env) : Except OpError (List ℚ) :=
  match env.embed with
  | .ok v => .ok v
  | .error msg =>
      if strContains msg ("API key not found") then
        .error (.embedCredentials cfg.embeddingModel msg)
      else
        .error (.embedFailed cfg.embeddingModel msg)

/-- Model of `const client = await this.pool.connect(); try { body } finally
{ client.release() }`: a failing `connect` throws with nothing held; an
acquired connection is released on every exit of the body. -/
def withClient (env : Env) (st : ServerState)
    (body : ServerState → Except OpError α × ServerState) :
    Except OpError α × ServerState :=
  if env.connectOk then
    let stIn : ServerState := { st with held := st.held + 1 }
    let out := body stIn
    (out.1, { out.2 with held := out.2.held - 1 })
  else
    (.error (.backendFailure .connect), st)

/-- Model of one backend query returning `a` on success and throwing a
backend failure otherwise. -/
def runQuery (env : Env) (site : QSite) (st : ServerState)
    (a : Except OpError α × ServerState) :
    Except OpError α × ServerState :=
  if env.queryOk site then a else (.error (.backendFailure site), st)

/-- The generated id: `` `mem_${Date.now()}_${Math.random().toString(36).substr(2, 9)}` ``. -/
def genId (env : Env) : String :=
  "mem_" ++ toString env.now ++ "_" ++ env.randSuffix

/-- Body of `ensureTable` running on an acquired client: check table
existence, and when absent create the table and its two indexes. -/
def ensureTableBody (env : Env) (name : String) (dim : ℕ)
    (st : ServerState) : Except OpError Unit × ServerState :=
  runQuery env .checkTable st
    (if (st.db.tables.lookup name).isSome then (.ok (), st)
     else
       runQuery env .createTable st
         (let st1 : ServerState := { st with db := ⟨(name, ⟨dim, []⟩) :: st.db.tables⟩ }
          runQuery env .createFtsIndex st1
            (runQuery env .createVecIndex st1 ((.ok (), st1)))))

/-- Model of `PostgresMCPServer.ensureTable`: name-required check, identifier
validation, model-dimension lookup, then lazy creation on a pooled client. -/
def ensureTable (cfg : Config) (env : Env) (st : ServerState)
    (tableName : Option String) : Except OpError Unit × ServerState :=
  match tableName with
  | none => (.error .tableNameRequired, st)
  | some name =>
    if name = "" then (.error .tableNameRequired, st)
    else if !(isValidTableName name) then (.error .invalidTableName, st)
    else
      match cfg.dims.lookup cfg.embeddingModel with
      | none => (.error (.unknownModel cfg.embeddingModel (cfg.dims.map Prod.fst)), st)
      | some dim => withClient env st (ensureTableBody env name dim)

/-- Arguments of the `store_memory` tool. -/
structure StoreArgs where
  content : String
  metadata : Option Json
  collection : Option String

/-- Insertion of a row into the named table, other tables untouched. -/
def dbInsert (db : DB) (name : String) (row : Row) : DB :=
  ⟨db.tables.map (fun p => if p.1 = name then (p.1, ⟨p.2.dim, p.2.rows ++ [row]⟩) else p)⟩

/-- Core of `storeMemory` before the catch-all: provision, embed, insert,
and shape the success payload. -/
def storeCore (cfg : Config) (env : Env) (st : ServerState) (args : StoreArgs) :
    Except OpError Json × ServerState :=
  match getCollectionName args.collection cfg with
  | none => (.error .tableNameRequired, st)
  | some name =>
    match ensureTable cfg env st (some name) with
    | (.error e, st1) => (.error e, st1)
    | (.ok _, st1) =>
      match generateEmbedding cfg env with
      | .error e => (.error e, st1)
      | .ok embedding =>
        let generatedId := genId env
        let storedMeta := jsOrElse args.metadata emptyObj
        withClient env st1 (fun st2 =>
          runQuery env .insertRow st2
            (let row : Row := ⟨generatedId, args.content, embedding, .valCell storedMeta, env.now⟩
             ((.ok (Json.obj [
                (("id"), .str generatedId),
                (("collection"), .str name),
                (("content_length"), .num (args.content.length : ℚ)),
                (("embedding_dimensions"), .num (embedding.length : ℚ)),
                (("embedding_model"), .str cfg.embeddingModel),
                (("metadata"), storedMeta),
                (("created_at"), .num (env.now : ℚ))])),
              { st2 with db := dbInsert st2.db name row })))

/-- Conversion of a thrown error or success payload into the uniform response
envelope written by every operation's `try/catch`. -/
def envelope (op : String) :
    Except OpError Json × ServerState → Json × ServerState
  | (.ok r, st) =>
      (Json.obj [(("success"), .bool true), (("operation"), .str op), (("result"), r)], st)
  | (.error e, st) =>
      (Json.obj [(("success"), .bool false), (("operation"), .str op), (("error"), .str e.message)], st)

/-- Model of `storeMemory` including its catch-all. -/
def storeMemory (cfg : Config) (env : Env) (st : ServerState) (args : StoreArgs) :
    Json × ServerState :=
  envelope ("store") (storeCore cfg env st args)

/-- One normalized search result:
`\x7bid, content, similarity, metadata, created_at\x7d`. -/
structure Memory where
  id : String
  content : String
  similarity : ℚ
  metadata : Json
  created_at : ℕ

/-- Normalization of one backend result row with an already-computed
similarity score. -/
def buildMemory (jp : String → Option Json) (row : Row) (sim : ℚ) : Memory :=
  ⟨row.id, row.content, sim, parseRowMetadata jp row.metadata_json, row.created_at⟩

/-- JSON rendering of one normalized search result. -/
def Memory.toJson (m : Memory) : Json :=
  .obj [(("id"), .str m.id), (("content"), .str m.content),
        (("similarity"), .num m.similarity), (("metadata"), m.metadata),
        (("created_at"), .num (m.created_at : ℚ))]

/-- The success payload of `searchMemory`:
`\x7bquery, mode, count, memories\x7d`. -/
def searchResultJson (query mode : String) (memories : List Memory) : Json :=
  .obj [(("query"), .str query), (("mode"), .str mode),
        (("count"), .num (memories.length : ℚ)),
        (("memories"), .arr (memories.map Memory.toJson))]

/-- Model of the tsquery construction:
`args.query.trim().split(/\s+/).join(' & ')`. -/
def toTsQuery (q : String) : String :=
  String.intercalate (" & ")
    (((q.trim).split (fun c => c.isWhitespace)).filter (fun s => !(s == "")))

/-- Arguments of the `search_memory` tool. -/
structure SearchArgs where
  query : String
  mode : Option String
  limit : Option ℚ
  collection : Option String

/-- Normalization of semantic-search rows: each raw distance is converted by
`similarity = 1 / (1 + distance)`. -/
def semanticMemories (jp : String → Option Json) (rows : List (Row × ℚ)) :
    List Memory :=
  rows.map (fun rd => buildMemory jp rd.1 (similarityOfDistance rd.2))

/-- Normalization of fulltext-search rows: the raw `ts_rank` relevance score
is used as the similarity unchanged. -/
def fulltextMemories (jp : String → Option Json) (rows : List (Row × ℚ)) :
    List Memory :=
  rows.map (fun rd => buildMemory jp rd.1 rd.2)

/-- Core of `searchMemory` before the catch-all: provision, resolve mode and
limit, then run one of the two strategies on a pooled client. -/
def searchCore (cfg : Config) (env : Env) (st : ServerState) (args : SearchArgs) :
    Except OpError Json × ServerState :=
  match getCollectionName args.collection cfg with
  | none => (.error .tableNameRequired, st)
  | some name =>
    match ensureTable cfg env st (some name) with
    | (.error e, st1) => (.error e, st1)
    | (.ok _, st1) =>
      let mode := resolveMode args.mode
      let limit := resolveLimit args.limit
      withClient env st1 (fun st2 =>
        if mode = "semantic" then
          match generateEmbedding cfg env with
          | .error e => (.error e, st2)
          | .ok qe =>
            runQuery env .searchQuery st2
              ((.ok (searchResultJson args.query mode
                  (semanticMemories env.jsonParse (env.semanticRows qe limit))), st2))
        else if mode = "fulltext" then
          runQuery env .searchQuery st2
            ((.ok (searchResultJson args.query mode
                (fulltextMemories env.jsonParse
                  (env.fulltextRows (toTsQuery args.query) limit))), st2))
        else (.error (.unknownSearchMode mode), st2))

/-- Model of `searchMemory` including its catch-all. -/
def searchMemory (cfg : Config) (env : Env) (st : ServerState) (args : SearchArgs) :
    Json × ServerState :=
  envelope ("search") (searchCore cfg env st args)

/-- Arguments of the `forget_memory` tool. -/
structure ForgetArgs where
  id : Option String
  collection : Option String

/-- Deletion of every row with the given id from the named table, other
tables untouched. -/
def dbDelete (db : DB) (name i : String) : DB :=
  ⟨db.tables.map (fun p =>
    if p.1 = name then (p.1, ⟨p.2.dim, p.2.rows.filter (fun r => !(r.id == i))⟩) else p)⟩

/-- Core of `forgetMemory` before the catch-all: id-format validation, then
collection-existence and memory-existence checks before the delete. -/
def forgetCore (cfg : Config) (env : Env) (st : ServerState) (args : ForgetArgs) :
    Except OpError Json × ServerState :=
  let tableName := getCollectionName args.collection cfg
  match args.id with
  | none => (.error (.invalidIdFormat none), st)
  | some i =>
    if i = "" || !(isValidMemoryId i) then (.error (.invalidIdFormat (some i)), st)
    else
      withClient env st (fun st1 =>
        runQuery env .checkTableForget st1
          (match tableName with
           | none => (.error (.collectionNotFound none), st1)
           | some n =>
             match st1.db.tables.lookup n with
             | none => (.error (.collectionNotFound (some n)), st1)
             | some tbl =>
               runQuery env .checkMemory st1
                 (if tbl.rows.any (fun r => r.id == i) then
                    runQuery env .deleteRow st1
                      (((.ok (Json.obj [(("id"), .str i), (("collection"), .str n)])),
                        { st1 with db := dbDelete st1.db n i }))
                  else (.error (.memoryNotFound i (some n)), st1))))

/-- Model of `forgetMemory` including its catch-all; its operation name in
the envelope is `delete`. -/
def forgetMemory (cfg : Config) (env : Env) (st : ServerState) (args : ForgetArgs) :
    Json × ServerState :=
  envelope ("delete") (forgetCore cfg env st args)

/-- Lookup of the row stored under an id in a named table. -/
def storedRow (st : ServerState) (name i : String) : Option Row :=
  (st.db.tables.lookup name).bind (fun t => t.rows.find? (fun r => r.id == i))

/-- Similarity normalization in `MilvusMCPServer.searchMemory`:
`distance !== undefined ? 1.0 / (1.0 + distance) : (score || 1.0)`. -/
def milvusSimilarity (distance : Option ℚ) (score : Option ℚ) : ℚ :=
  match distance with
  | some d => 1 / (1 + d)
  | none =>
      match score with
      | some s => if s = 0 then 1 else s
      | none => 1

/-- Metadata handling in `MilvusMCPServer.searchMemory`:
`JSON.parse(metadata_json || '\x7b\x7d')`, degrading to the empty object when
the parse throws. -/
def milvusRowMetadata (jp : String → Option Json) (cell : Option String) : Json :=
  match cell with
  | some s => if s = "" then (jp ("\x7b\x7d")).getD emptyObj else (jp s).getD emptyObj
  | none => (jp ("\x7b\x7d")).getD emptyObj

/-- One Milvus collection: the vector dimension fixed at creation, whether it
has been loaded, and the ids of the stored entities. -/
structure MilvusCollection where
  dim : ℕ
  loaded : Bool
  rowIds : List String

/-- The Milvus backend state: an association of collection names to
collections. -/
structure MilvusState where
  collections : List (String × MilvusCollection)

/-- Oracle outcomes for the Milvus client's calls. -/
structure MEnv where
  queryOk : MSite → Bool

/-- Environment in which every Milvus client call succeeds. -/
def menvOk (env : MEnv) : Prop := ∀ q, env.queryOk q = true

/-- Model of one Milvus client call throwing a backend failure when the
oracle says so. -/
def mrunQuery (env : MEnv) (site : MSite) (st : MilvusState)
    (a : Except OpError α × MilvusState) : Except OpError α × MilvusState :=
  if env.queryOk site then a else (.error (.milvusBackendFailure site), st)

/-- Marking the named collection as loaded. -/
def mLoad (st : MilvusState) (n : String) : MilvusState :=
  ⟨st.collections.map (fun p => if p.1 = n then (p.1, { p.2 with loaded := true }) else p)⟩

/-- Model of `MilvusMCPServer.ensureCollection`: create the collection when
absent (after the model-dimension lookup), then always load it. -/
def ensureCollection (cfg : Config) (env : MEnv) (st : MilvusState)
    (name : Option String) : Except OpError Unit × MilvusState :=
  match name with
  | none => (.error .collectionRequired, st)
  | some n =>
    if n = "" then (.error .collectionRequired, st)
    else
      mrunQuery env .hasCollection st
        (if (st.collections.lookup n).isSome then
           mrunQuery env .loadCollection st ((.ok (), mLoad st n))
         else
           match cfg.dims.lookup cfg.embeddingModel with
           | none => (.error (.unknownModel cfg.embeddingModel (cfg.dims.map Prod.fst)), st)
           | some dim =>
             mrunQuery env .createCollection st
               (let st1 : MilvusState := ⟨(n, ⟨dim, false, []⟩) :: st.collections⟩
                mrunQuery env .loadCollection st1 ((.ok (), mLoad st1 n))))

/-- Deletion of an id from the named Milvus collection. -/
def mDelete (st : MilvusState) (n i : String) : MilvusState :=
  ⟨st.collections.map (fun p =>
    if p.1 = n then (p.1, { p.2 with rowIds := p.2.rowIds.filter (fun r => !(r == i)) }) else p)⟩

/-- Model of `MilvusMCPServer.forgetMemory` before the catch-all: id-format
validation, collection-existence check, `ensureCollection`, then the
entity-existence check before the delete. -/
def milvusForgetCore (cfg : Config) (env : MEnv) (st : MilvusState)
    (args : ForgetArgs) : Except OpError Json × MilvusState :=
  let collectionName := getCollectionName args.collection cfg
  match args.id with
  | none => (.error (.invalidIdFormat none), st)
  | some i =>
    if i = "" || !(isValidMemoryId i) then (.error (.invalidIdFormat (some i)), st)
    else
      mrunQuery env .hasCollection st
        (match collectionName with
         | none => (.error (.collectionNotFound none), st)
         | some n =>
           if (st.collections.lookup n).isSome then
             match ensureCollection cfg env st (some n) with
             | (.error e, st1) => (.error e, st1)
             | (.ok _, st1) =>
               mrunQuery env .queryIds st1
                 (match st1.collections.lookup n with
                  | some c =>
                    if c.rowIds.any (fun r => r == i) then
                      mrunQuery env .deleteIds st1
                        (((.ok (Json.obj [(("id"), .str i), (("collection"), .str n)])),
                          mDelete st1 n i))
                    else (.error (.memoryNotFound i (some n)), st1)
                  | none => (.error (.memoryNotFound i (some n)), st1))
           else (.error (.collectionNotFound (some n)), st))

/-- The id validation applied by both forget implementations:
`args.id` must be present, truthy and match the generated-id shape. -/
def forgetIdOk : Option String → Bool
  | none => false
  | some i => !(i == "") && isValidMemoryId i

/-- Lookup of a possibly-unresolved table name in the database (an
unresolved name never matches an existing table). -/
def tableLookup (st : ServerState) : Option String → Option PGTable
  | some n => st.db.tables.lookup n
  | none => none

/-- Shape of a failure response:
`\x7bsuccess: false, operation, error\x7d`. -/
def isFailEnvelope (op : String) (j : Json) : Prop :=
  ∃ msg, j = Json.obj [(("success"), Json.bool false),
                       (("operation"), Json.str op),
                       (("error"), Json.str msg)]

/-- Shape of a success response:
`\x7bsuccess: true, operation, result\x7d`. -/
def isOkEnvelope (op : String) (j : Json) : Prop :=
  ∃ r, j = Json.obj [(("success"), Json.bool true),
                     (("operation"), Json.str op),
                     (("result"), r)]

/-- Fixture configuration for concrete runs. -/
def testCfg : Config :=
  ⟨some ("memories"), ("google/text-embedding-004"),
   [(("google/text-embedding-004"), 768)]⟩

/-- Fixture row for concrete runs. -/
def testRow : Row := ⟨("mem_1_a"), ("hello"), [1], .valCell emptyObj, 5⟩

/-- Fixture environment in which every external call succeeds, the clock
reads 7 and the random suffix is `abc`. -/
def testEnv : Env :=
  ⟨true, fun _ => true, .ok [1], 7, ("abc"), fun _ => none,
   fun _ _ => [(testRow, 2)], fun _ _ => [(testRow, 0)]⟩

/-- Fixture state with one provisioned table holding one row. -/
def testState : ServerState := ⟨⟨[(("memories"), ⟨768, [testRow]⟩)]⟩, 0⟩

/-- Fixture state with no tables. -/
def emptyState : ServerState := ⟨⟨[]⟩, 0⟩

/-- Fixture Milvus environment in which every client call succeeds. -/
def testMEnv : MEnv := ⟨fun _ => true⟩

/-- Fixture Milvus state with one collection holding one entity id. -/
def testMState : MilvusState := ⟨[(("memories"), ⟨768, false, [("mem_1_a")]⟩)]⟩

theorem envelope_snd (op : String) (x : Except OpError Json × ServerState) :
    (envelope op x).2 = x.2 := by
  rcases x with ⟨r, s⟩
  cases r <;> rfl

theorem runQuery_held {α : Type} (env : Env) (site : QSite) (stBase : ServerState)
    (a : Except OpError α × ServerState) (n : ℕ)
    (h1 : a.2.held = n) (h2 : stBase.held = n) :
    ((runQuery env site stBase a).2).held = n := by
  unfold runQuery
  split
  · exact h1
  · exact h2

theorem withClient_held {α : Type} (env : Env) (st : ServerState)
    (body : ServerState → Except OpError α × ServerState)
    (h : ∀ s, ((body s).2).held = s.held) :
    ((withClient env st body).2).held = st.held := by
  unfold withClient
  split
  · simp [h]
  · rfl

theorem ensureTableBody_held (env : Env) (name : String) (dim : ℕ) (st : ServerState) :
    ((ensureTableBody env name dim st).2).held = st.held := by
  unfold ensureTableBody runQuery
  repeat' split <;> try rfl

theorem ensureTable_held (cfg : Config) (env : Env) (st : ServerState)
    (t : Option String) : ((ensureTable cfg env st t).2).held = st.held := by
  unfold ensureTable
  rcases t with _ | name
  · rfl
  · split
    · rfl
    · split
      · rfl
      · split
        · rfl
        · split
          · rfl
          · apply withClient_held
            intro s
            apply ensureTableBody_held

theorem storeCore_held (cfg : Config) (env : Env) (st : ServerState) (args : StoreArgs) :
    ((storeCore cfg env st args).2).held = st.held := by
  unfold storeCore
  split
  · rfl
  next name _ =>
    split
    next e st1 heq =>
      have h := ensureTable_held cfg env st (some name)
      rw [heq] at h
      exact h
    next st1 heq =>
      have h := ensureTable_held cfg env st (some name)
      rw [heq] at h
      split
      · exact h
      · rw [← h]
        apply withClient_held
        intro s
        unfold runQuery
        split <;> rfl

theorem searchCore_held (cfg : Config) (env : Env) (st : ServerState) (args : SearchArgs) :
    ((searchCore cfg env st args).2).held = st.held := by
  unfold searchCore
  split
  · rfl
  next name _ =>
    split
    next e st1 heq =>
      have h := ensureTable_held cfg env st (some name)
      rw [heq] at h
      exact h
    next st1 heq =>
      have h := ensureTable_held cfg env st (some name)
      rw [heq] at h
      rw [← h]
      apply withClient_held
      intro s
      split
      · split
        · rfl
        · unfold runQuery
          split <;> rfl
      · split
        · unfold runQuery
          split <;> rfl
        · rfl

theorem forgetCore_held (cfg : Config) (env : Env) (st : ServerState) (args : ForgetArgs) :
    ((forgetCore cfg env st args).2).held = st.held := by
  unfold forgetCore
  split
  · rfl
  next i =>
    split
    · rfl
    · apply withClient_held
      intro s
      unfold runQuery
      repeat' split <;> try rfl

/-- C9: every operation that acquires a pool connection releases it on every
exit path: for every oracle outcome (success, classified error, or backend
failure at any query site), the number of held connections after
`ensureTable`, `storeMemory`, `searchMemory` and `forgetMemory` equals the
number held before. -/
theorem connection_lease_balance (cfg : Config) (env : Env) (st : ServerState)
    (t : Option String) (sa : StoreArgs) (qa : SearchArgs) (fa : ForgetArgs) :
    ((ensureTable cfg env st t).2).held = st.held ∧
    ((storeMemory cfg env st sa).2).held = st.held ∧
    ((searchMemory cfg env st qa).2).held = st.held ∧
    ((forgetMemory cfg env st fa).2).held = st.held := by
  refine ⟨ensureTable_held cfg env st t, ?_, ?_, ?_⟩
  · rw [storeMemory, envelope_snd]
    exact storeCore_held cfg env st sa
  · rw [searchMemory, envelope_snd]
    exact searchCore_held cfg env st qa
  · rw [forgetMemory, envelope_snd]
    exact forgetCore_held cfg env st fa

/-- C1: every invocation of store, search, or forget returns a well-formed
envelope for every oracle outcome: a JSON object
`\x7bsuccess: false, operation, error\x7d` on every failure path and
`\x7bsuccess: true, operation, result\x7d` on success; no path yields any
other shape. -/
theorem response_envelope_shape (cfg : Config) (env : Env) (st : ServerState)
    (sa : StoreArgs) (qa : SearchArgs) (fa : ForgetArgs) :
    (isFailEnvelope ("store") (storeMemory cfg env st sa).1 ∨
      isOkEnvelope ("store") (storeMemory cfg env st sa).1) ∧
    (isFailEnvelope ("search") (searchMemory cfg env st qa).1 ∨
      isOkEnvelope ("search") (searchMemory cfg env st qa).1) ∧
    (isFailEnvelope ("delete") (forgetMemory cfg env st fa).1 ∨
      isOkEnvelope ("delete") (forgetMemory cfg env st fa).1) := by
  refine ⟨?_, ?_, ?_⟩
  · rw [storeMemory]
    rcases storeCore cfg env st sa with ⟨r, s⟩
    cases r with
    | error e => exact Or.inl ⟨e.message, rfl⟩
    | ok j => exact Or.inr ⟨j, rfl⟩
  · rw [searchMemory]
    rcases searchCore cfg env st qa with ⟨r, s⟩
    cases r with
    | error e => exact Or.inl ⟨e.message, rfl⟩
    | ok j => exact Or.inr ⟨j, rfl⟩
  · rw [forgetMemory]
    rcases forgetCore cfg env st fa with ⟨r, s⟩
    cases r with
    | error e => exact Or.inl ⟨e.message, rfl⟩
    | ok j => exact Or.inr ⟨j, rfl⟩

theorem isValidTableName_ne_empty (name : String) (h : isValidTableName name = true) :
    ¬(name = "") := by
  intro he
  rw [he] at h
  simp [isValidTableName] at h

theorem ensureTable_envOk (cfg : Config) (env : Env) (st : ServerState) (name : String)
    (henv : envOk env) (hvalid : isValidTableName name = true)
    (hdim : (cfg.dims.lookup cfg.embeddingModel).isSome = true) :
    ∃ st1, ensureTable cfg env st (some name) = (.ok (), st1) ∧
      (st1.db.tables.lookup name).isSome = true ∧ st1.held = st.held := by
  obtain ⟨hc, hq⟩ := henv
  obtain ⟨dim, hd⟩ := Option.isSome_iff_exists.mp hdim
  unfold ensureTable withClient ensureTableBody runQuery
  simp only [if_neg (isValidTableName_ne_empty name hvalid), hvalid, Bool.not_true,
    Bool.false_eq_true, if_false, hd, hc, hq, if_true]
  split
  · exact ⟨_, rfl, by simp_all, by simp⟩
  · exact ⟨_, rfl, by simp [List.lookup], by simp⟩

theorem similarityOfDistance_pos (d : ℚ) (hd : 0 ≤ d) :
    0 < similarityOfDistance d := by
  unfold similarityOfDistance
  exact one_div_pos.mpr (by linarith)

theorem similarityOfDistance_le_one (d : ℚ) (hd : 0 ≤ d) :
    similarityOfDistance d ≤ 1 := by
  unfold similarityOfDistance
  rw [div_le_one (by linarith)]
  linarith

theorem similarityOfDistance_zero : similarityOfDistance 0 = 1 := by
  unfold similarityOfDistance
  norm_num

theorem similarityOfDistance_strict_anti (d1 d2 : ℚ) (h1 : 0 ≤ d1) (h12 : d1 < d2) :
    similarityOfDistance d2 < similarityOfDistance d1 := by
  unfold similarityOfDistance
  exact one_div_lt_one_div_of_lt (by linarith) (by linarith)

theorem similarityOfDistance_anti (d1 d2 : ℚ) (h1 : 0 ≤ d1) (h12 : d1 ≤ d2) :
    similarityOfDistance d2 ≤ similarityOfDistance d1 := by
  unfold similarityOfDistance
  exact one_div_le_one_div_of_le (by linarith) (by linarith)

theorem searchCore_semantic_run (cfg : Config) (env : Env) (st : ServerState)
    (args : SearchArgs) (name : String) (qe : List ℚ)
    (henv : envOk env) (hname : getCollectionName args.collection cfg = some name)
    (hvalid : isValidTableName name = true)
    (hdim : (cfg.dims.lookup cfg.embeddingModel).isSome = true)
    (hmode : resolveMode args.mode = "semantic")
    (hemb : env.embed = .ok qe) :
    ∃ st1, searchCore cfg env st args =
      (.ok (searchResultJson args.query ("semantic")
        (semanticMemories env.jsonParse
          (env.semanticRows qe (resolveLimit args.limit)))), st1) ∧
      (st1.db.tables.lookup name).isSome = true ∧ st1.held = st.held := by
  obtain ⟨stE, hE, hlk, hheld⟩ := ensureTable_envOk cfg env st name henv hvalid hdim
  obtain ⟨hc, hq⟩ := henv
  refine ⟨stE, ?_, hlk, hheld⟩
  unfold searchCore
  rw [hname]
  dsimp only
  rw [hE]
  dsimp only
  rw [hmode]
  unfold withClient generateEmbedding runQuery
  rw [hemb, hc, hq QSite.searchQuery]
  rfl

theorem searchCore_fulltext_run (cfg : Config) (env : Env) (st : ServerState)
    (args : SearchArgs) (name : String)
    (henv : envOk env) (hname : getCollectionName args.collection cfg = some name)
    (hvalid : isValidTableName name = true)
    (hdim : (cfg.dims.lookup cfg.embeddingModel).isSome = true)
    (hmode : resolveMode args.mode = "fulltext") :
    ∃ st1, searchCore cfg env st args =
      (.ok (searchResultJson args.query ("fulltext")
        (fulltextMemories env.jsonParse
          (env.fulltextRows (toTsQuery args.query) (resolveLimit args.limit)))), st1) ∧
      (st1.db.tables.lookup name).isSome = true ∧ st1.held = st.held := by
  obtain ⟨stE, hE, hlk, hheld⟩ := ensureTable_envOk cfg env st name henv hvalid hdim
  obtain ⟨hc, hq⟩ := henv
  refine ⟨stE, ?_, hlk, hheld⟩
  unfold searchCore
  rw [hname]
  dsimp only
  rw [hE]
  dsimp only
  rw [hmode]
  unfold withClient runQuery
  rw [hc, hq QSite.searchQuery]
  rfl

/-- C3: in semantic-mode search every returned memory's similarity is
`1 / (1 + distance)` applied to that result's raw backend distance; for every
distance `d ≥ 0` this value lies in `(0, 1]`, equals exactly 1 at zero
distance, and is strictly decreasing in the distance, so the backend's
ascending-distance order is preserved as descending-similarity order (the
Milvus distance branch applies the same conversion). -/
theorem semantic_similarity_spec (cfg : Config) (env : Env) (st : ServerState)
    (args : SearchArgs) (name : String) (qe : List ℚ)
    (henv : envOk env) (hname : getCollectionName args.collection cfg = some name)
    (hvalid : isValidTableName name = true)
    (hdim : (cfg.dims.lookup cfg.embeddingModel).isSome = true)
    (hmode : resolveMode args.mode = "semantic")
    (hemb : env.embed = .ok qe) :
    (∃ st1, searchCore cfg env st args =
      (.ok (searchResultJson args.query ("semantic")
        (semanticMemories env.jsonParse
          (env.semanticRows qe (resolveLimit args.limit)))), st1)) ∧
    (∀ (jp : String → Option Json) (rows : List (Row × ℚ)),
      (semanticMemories jp rows).map Memory.similarity
        = rows.map (fun rd => similarityOfDistance rd.2)) ∧
    (∀ d : ℚ, 0 ≤ d → 0 < similarityOfDistance d ∧ similarityOfDistance d ≤ 1) ∧
    similarityOfDistance 0 = 1 ∧
    (∀ d1 d2 : ℚ, 0 ≤ d1 → d1 < d2 →
      similarityOfDistance d2 < similarityOfDistance d1) ∧
    (∀ (jp : String → Option Json) (rows : List (Row × ℚ)),
      (∀ rd ∈ rows, 0 ≤ rd.2) →
      rows.Pairwise (fun a b => a.2 ≤ b.2) →
      (semanticMemories jp rows).Pairwise (fun a b => b.similarity ≤ a.similarity)) ∧
    (∀ (d : ℚ) (s : Option ℚ), milvusSimilarity (some d) s = similarityOfDistance d) := by
  obtain ⟨st1, hrun, _, _⟩ :=
    searchCore_semantic_run cfg env st args name qe henv hname hvalid hdim hmode hemb
  refine ⟨⟨st1, hrun⟩, ?_, ?_, similarityOfDistance_zero, ?_, ?_, ?_⟩
  · intro jp rows
    simp only [semanticMemories, List.map_map]
    rfl
  · intro d hd
    exact ⟨similarityOfDistance_pos d hd, similarityOfDistance_le_one d hd⟩
  · intro d1 d2 h1 h12
    exact similarityOfDistance_strict_anti d1 d2 h1 h12
  · intro jp rows hnn hp
    induction rows with
    | nil => simp [semanticMemories]
    | cons hd tl ih =>
      rw [List.pairwise_cons] at hp
      simp only [semanticMemories, List.map_cons, List.pairwise_cons]
      constructor
      · intro m hm
        obtain ⟨rd, hrd, hh⟩ := List.mem_map.mp hm
        subst hh
        exact similarityOfDistance_anti hd.2 rd.2 (hnn hd (by simp)) (hp.1 rd hrd)
      · exact ih (fun rd h => hnn rd (by simp [h])) hp.2
  · intro d s
    rfl

/-- C3 witness: a concrete semantic search in which every external call
succeeds, instantiating the hypotheses of `semantic_similarity_spec`. -/
theorem semantic_similarity_spec_witness :
    (envOk testEnv ∧
     getCollectionName none testCfg = some ("memories") ∧
     isValidTableName ("memories") = true ∧
     (testCfg.dims.lookup testCfg.embeddingModel).isSome = true ∧
     resolveMode none = "semantic" ∧
     testEnv.embed = .ok [1]) ∧
    (∃ st1, searchCore testCfg testEnv testState ⟨("hi"), none, none, none⟩ =
      (.ok (searchResultJson ("hi") ("semantic")
        (semanticMemories testEnv.jsonParse
          (testEnv.semanticRows [1] (resolveLimit none)))), st1)) ∧
    (0 < similarityOfDistance 2 ∧ similarityOfDistance 2 ≤ 1) ∧
    similarityOfDistance 3 < similarityOfDistance 1 := by
  have h := semantic_similarity_spec testCfg testEnv testState
    ⟨("hi"), none, none, none⟩ ("memories") [1]
    ⟨rfl, fun _ => rfl⟩ rfl rfl rfl rfl rfl
  exact ⟨⟨⟨rfl, fun _ => rfl⟩, rfl, rfl, rfl, rfl, rfl⟩, h.1,
    h.2.2.1 2 (by norm_num), h.2.2.2.2.1 1 3 (by norm_num) (by norm_num)⟩

/-- C6 counterexample: a caller-supplied limit of 0 is not passed to the
backend unchanged — `args.limit || 10` replaces it with the default 10. -/
theorem search_limit_counterexample :
    resolveLimit (some 0) = 10 ∧ ¬((10 : ℚ) = 0) := ⟨rfl, by norm_num⟩

/-- C6 (amended): an absent limit resolves to the default 10 and a nonzero
supplied limit is passed to the backend query verbatim, but a supplied limit
of 0 (JS-falsy) also resolves to 10; the returned list is the one-to-one,
order-preserving image of the backend rows, with no client-side re-sorting
or re-limiting. -/
theorem search_limit_spec :
    resolveLimit none = 10 ∧
    (∀ l : ℚ, ¬(l = 0) → resolveLimit (some l) = l) ∧
    resolveLimit (some 0) = 10 ∧
    (∀ (cfg : Config) (env : Env) (st : ServerState) (args : SearchArgs)
       (name : String) (qe : List ℚ),
      envOk env → getCollectionName args.collection cfg = some name →
      isValidTableName name = true →
      (cfg.dims.lookup cfg.embeddingModel).isSome = true →
      resolveMode args.mode = "semantic" → env.embed = .ok qe →
      ∃ st1, searchCore cfg env st args =
        (.ok (searchResultJson args.query ("semantic")
          (semanticMemories env.jsonParse
            (env.semanticRows qe (resolveLimit args.limit)))), st1)) ∧
    (∀ (cfg : Config) (env : Env) (st : ServerState) (args : SearchArgs)
       (name : String),
      envOk env → getCollectionName args.collection cfg = some name →
      isValidTableName name = true →
      (cfg.dims.lookup cfg.embeddingModel).isSome = true →
      resolveMode args.mode = "fulltext" →
      ∃ st1, searchCore cfg env st args =
        (.ok (searchResultJson args.query ("fulltext")
          (fulltextMemories env.jsonParse
            (env.fulltextRows (toTsQuery args.query) (resolveLimit args.limit)))), st1)) ∧
    (∀ (jp : String → Option Json) (rows : List (Row × ℚ)),
      (semanticMemories jp rows).length = rows.length ∧
      (semanticMemories jp rows).map Memory.id = rows.map (fun rd => rd.1.id) ∧
      (fulltextMemories jp rows).length = rows.length ∧
      (fulltextMemories jp rows).map Memory.id = rows.map (fun rd => rd.1.id)) := by
  refine ⟨rfl, ?_, rfl, ?_, ?_, ?_⟩
  · intro l hl
    simp [resolveLimit, hl]
  · intro cfg env st args name qe henv hname hvalid hdim hmode hemb
    obtain ⟨st1, h, _, _⟩ :=
      searchCore_semantic_run cfg env st args name qe henv hname hvalid hdim hmode hemb
    exact ⟨st1, h⟩
  · intro cfg env st args name henv hname hvalid hdim hmode
    obtain ⟨st1, h, _, _⟩ :=
      searchCore_fulltext_run cfg env st args name henv hname hvalid hdim hmode
    exact ⟨st1, h⟩
  · intro jp rows
    refine ⟨by simp [semanticMemories], ?_, by simp [fulltextMemories], ?_⟩
    · simp only [semanticMemories, List.map_map]
      rfl
    · simp only [fulltextMemories, List.map_map]
      rfl

/-- C6 witness: a concrete fulltext search with supplied limit 5, which is
passed to the backend query verbatim. -/
theorem search_limit_spec_witness :
    ¬((5 : ℚ) = 0) ∧ resolveLimit (some 5) = 5 ∧ envOk testEnv ∧
    (∃ st1, searchCore testCfg testEnv testState
        ⟨("hi"), some ("fulltext"), some 5, none⟩ =
      (.ok (searchResultJson ("hi") ("fulltext")
        (fulltextMemories testEnv.jsonParse
          (testEnv.fulltextRows (toTsQuery ("hi")) (resolveLimit (some 5))))), st1)) := by
  refine ⟨by norm_num, search_limit_spec.2.1 5 (by norm_num), ⟨rfl, fun _ => rfl⟩, ?_⟩
  exact search_limit_spec.2.2.2.2.1 testCfg testEnv testState
    ⟨("hi"), some ("fulltext"), some 5, none⟩ ("memories")
    ⟨rfl, fun _ => rfl⟩ rfl rfl rfl rfl

/-- C4 counterexample: on the Milvus result path a fulltext relevance score
of 0 is not reported as-is — `score || 1.0` turns it into 1.0. -/
theorem fulltext_raw_score_counterexample :
    milvusSimilarity none (some 0) = 1 ∧ ¬((1 : ℚ) = 0) := ⟨rfl, by norm_num⟩

/-- C4 (amended): in fulltext mode the Postgres server reports the backend's
raw relevance score unchanged as the similarity, including a score of 0; the
Milvus server reports the raw score unchanged only when it is nonzero, and
reports 1.0 when the score is zero or missing (`score || 1.0`), while a
result carrying a distance field is converted by `1 / (1 + distance)`. -/
theorem fulltext_raw_score_spec :
    (∀ (jp : String → Option Json) (rows : List (Row × ℚ)),
      (fulltextMemories jp rows).map Memory.similarity
        = rows.map (fun rd => rd.2)) ∧
    (∀ (cfg : Config) (env : Env) (st : ServerState) (args : SearchArgs)
       (name : String),
      envOk env → getCollectionName args.collection cfg = some name →
      isValidTableName name = true →
      (cfg.dims.lookup cfg.embeddingModel).isSome = true →
      resolveMode args.mode = "fulltext" →
      ∃ st1, searchCore cfg env st args =
        (.ok (searchResultJson args.query ("fulltext")
          (fulltextMemories env.jsonParse
            (env.fulltextRows (toTsQuery args.query) (resolveLimit args.limit)))), st1)) ∧
    (∀ s : ℚ, ¬(s = 0) → milvusSimilarity none (some s) = s) ∧
    milvusSimilarity none (some 0) = 1 ∧
    milvusSimilarity none none = 1 ∧
    (∀ (d : ℚ) (s : Option ℚ), milvusSimilarity (some d) s = 1 / (1 + d)) := by
  refine ⟨?_, ?_, ?_, rfl, rfl, fun d s => rfl⟩
  · intro jp rows
    simp only [fulltextMemories, List.map_map]
    rfl
  · intro cfg env st args name henv hname hvalid hdim hmode
    obtain ⟨st1, h, _, _⟩ :=
      searchCore_fulltext_run cfg env st args name henv hname hvalid hdim hmode
    exact ⟨st1, h⟩
  · intro s hs
    simp [milvusSimilarity, hs]

/-- C4 witness: a concrete fulltext search run plus a concrete nonzero
Milvus score reported unchanged. -/
theorem fulltext_raw_score_spec_witness :
    ¬((2 : ℚ) = 0) ∧ milvusSimilarity none (some 2) = 2 ∧ envOk testEnv ∧
    (∃ st1, searchCore testCfg testEnv testState
        ⟨("dog"), some ("fulltext"), none, none⟩ =
      (.ok (searchResultJson ("dog") ("fulltext")
        (fulltextMemories testEnv.jsonParse
          (testEnv.fulltextRows (toTsQuery ("dog")) (resolveLimit none)))), st1)) := by
  refine ⟨by norm_num, fulltext_raw_score_spec.2.2.1 2 (by norm_num),
    ⟨rfl, fun _ => rfl⟩, ?_⟩
  exact fulltext_raw_score_spec.2.1 testCfg testEnv testState
    ⟨("dog"), some ("fulltext"), none, none⟩ ("memories")
    ⟨rfl, fun _ => rfl⟩ rfl rfl rfl rfl

/-- C7: malformed or absent stored metadata on a returned record never
aborts the search and degrades to the empty object for that record only:
the search succeeds for every backend row list, each record is normalized
independently, a record whose stored metadata fails to parse gets metadata
`\x7b\x7d`, and replacing one row's metadata cell does not change any other
returned record (Milvus variant included). -/
theorem malformed_metadata_isolation :
    (∀ (jp : String → Option Json) (s : String), jp s = none →
      parseRowMetadata jp (.strCell s) = emptyObj) ∧
    (∀ jp : String → Option Json, parseRowMetadata jp .absent = emptyObj) ∧
    (∀ (cfg : Config) (env : Env) (st : ServerState) (args : SearchArgs)
       (name : String),
      envOk env → getCollectionName args.collection cfg = some name →
      isValidTableName name = true →
      (cfg.dims.lookup cfg.embeddingModel).isSome = true →
      resolveMode args.mode = "fulltext" →
      ∃ st1, searchCore cfg env st args =
        (.ok (searchResultJson args.query ("fulltext")
          (fulltextMemories env.jsonParse
            (env.fulltextRows (toTsQuery args.query) (resolveLimit args.limit)))), st1)) ∧
    (∀ (jp : String → Option Json) (rows : List (Row × ℚ)) (i : ℕ),
      (fulltextMemories jp rows)[i]? =
        (rows[i]?).map (fun rd => buildMemory jp rd.1 rd.2)) ∧
    (∀ (jp : String → Option Json) (rows : List (Row × ℚ)) (i j : ℕ)
       (r' : Row × ℚ), ¬(j = i) →
      (fulltextMemories jp (rows.set i r'))[j]? = (fulltextMemories jp rows)[j]?) ∧
    (∀ (jp : String → Option Json) (s : String), jp s = none → ¬(s = "") →
      milvusRowMetadata jp (some s) = emptyObj) ∧
    (∀ jp : String → Option Json, jp ("\x7b\x7d") = some emptyObj →
      milvusRowMetadata jp none = emptyObj) := by
  refine ⟨?_, fun jp => rfl, ?_, ?_, ?_, ?_, ?_⟩
  · intro jp s h
    simp [parseRowMetadata, h]
  · intro cfg env st args name henv hname hvalid hdim hmode
    obtain ⟨st1, h, _, _⟩ :=
      searchCore_fulltext_run cfg env st args name henv hname hvalid hdim hmode
    exact ⟨st1, h⟩
  · intro jp rows i
    simp only [fulltextMemories]
    exact List.getElem?_map ..
  · intro jp rows i j r' hj
    simp only [fulltextMemories]
    rw [List.map_set, List.getElem?_set_ne (fun h => hj h.symm)]
  · intro jp s h hs
    simp [milvusRowMetadata, h, hs]
  · intro jp h
    simp [milvusRowMetadata, h]

/-- C7 witness: a concrete row whose stored metadata does not parse is
returned with empty metadata while the search succeeds. -/
theorem malformed_metadata_isolation_witness :
    ((fun _ : String => (none : Option Json)) ("oops") = none) ∧
    parseRowMetadata (fun _ => none) (.strCell ("oops")) = emptyObj ∧
    envOk testEnv ∧
    (∃ st1, searchCore testCfg testEnv testState
        ⟨("cat"), some ("fulltext"), none, none⟩ =
      (.ok (searchResultJson ("cat") ("fulltext")
        (fulltextMemories testEnv.jsonParse
          (testEnv.fulltextRows (toTsQuery ("cat")) (resolveLimit none)))), st1)) ∧
    milvusRowMetadata (fun _ => none) (some ("oops")) = emptyObj := by
  refine ⟨rfl, malformed_metadata_isolation.1 (fun _ => none) ("oops") rfl,
    ⟨rfl, fun _ => rfl⟩, ?_,
    malformed_metadata_isolation.2.2.2.2.2.1 (fun _ => none) ("oops") rfl (by decide)⟩
  exact malformed_metadata_isolation.2.2.1 testCfg testEnv testState
    ⟨("cat"), some ("fulltext"), none, none⟩ ("memories")
    ⟨rfl, fun _ => rfl⟩ rfl rfl rfl rfl

theorem map_fst_keep {β : Type} (l : List (String × β))
    (g : String × β → String × β) (hg : ∀ p, (g p).1 = p.1) :
    (l.map g).map Prod.fst = l.map Prod.fst := by
  induction l with
  | nil => rfl
  | cons p rest ih => simp [hg p, ih]

theorem lookup_adjust_self {β : Type} (l : List (String × β)) (f : β → β)
    (n : String) (b : β) (h : l.lookup n = some b) :
    (l.map (fun p => if p.1 = n then (p.1, f p.2) else p)).lookup n = some (f b) := by
  induction l with
  | nil => simp at h
  | cons p rest ih =>
    obtain ⟨k, t⟩ := p
    rw [List.map_cons]
    by_cases hk : k = n
    · subst hk
      rw [if_pos rfl]
      rw [List.lookup_cons] at h ⊢
      rw [beq_self_eq_true] at h ⊢
      dsimp only at h ⊢
      obtain rfl : t = b := Option.some.inj h
      rfl
    · rw [if_neg hk]
      rw [List.lookup_cons] at h ⊢
      rw [beq_eq_false_iff_ne.mpr (fun hh => hk hh.symm)] at h ⊢
      dsimp only at h ⊢
      exact ih h

theorem lookup_adjust_other {β : Type} (l : List (String × β)) (f : β → β)
    (n m : String) (hm : ¬(m = n)) :
    (l.map (fun p => if p.1 = n then (p.1, f p.2) else p)).lookup m = l.lookup m := by
  induction l with
  | nil => rfl
  | cons p rest ih =>
    obtain ⟨k, t⟩ := p
    rw [List.map_cons]
    by_cases hk : k = n
    · subst hk
      rw [if_pos rfl]
      rw [List.lookup_cons, List.lookup_cons,
        beq_eq_false_iff_ne.mpr (fun hh => hm (hh.trans rfl))]
      dsimp only
      exact ih
    · rw [if_neg hk]
      rw [List.lookup_cons, List.lookup_cons]
      by_cases hmk : m = k
      · subst hmk
        rw [beq_self_eq_true]
      · rw [beq_eq_false_iff_ne.mpr hmk]
        dsimp only
        exact ih

theorem forgetCore_eval (cfg : Config) (env : Env) (st : ServerState)
    (args : ForgetArgs) (i : String)
    (hid : args.id = some i)
    (hcond : (decide (i = "") || !(isValidMemoryId i)) = false)
    (hc : env.connectOk = true) (hq : ∀ q, env.queryOk q = true) :
    forgetCore cfg env st args =
      (match getCollectionName args.collection cfg with
       | none => (.error (.collectionNotFound none), st)
       | some n =>
         match st.db.tables.lookup n with
         | none => (.error (.collectionNotFound (some n)), st)
         | some tbl =>
           if tbl.rows.any (fun r => r.id == i) then
             (.ok (Json.obj [(("id"), Json.str i), (("collection"), Json.str n)]),
              (⟨dbDelete st.db n i, st.held⟩ : ServerState))
           else (.error (.memoryNotFound i (some n)), st)) := by
  unfold forgetCore
  rw [hid]
  dsimp only
  rw [hcond]
  unfold withClient runQuery
  rw [hc, hq QSite.checkTableForget, hq QSite.checkMemory, hq QSite.deleteRow]
  rcases hn : getCollectionName args.collection cfg with _ | n
  · rfl
  · dsimp only
    rcases hl : st.db.tables.lookup n with _ | tbl
    · rfl
    · by_cases hr : (tbl.rows.any fun r => r.id == i) = true
      · simp only [hr, if_true]
        rfl
      · simp only [hr, if_false]
        rfl

/-- C2: `forget` first validates the id shape and fails with the
invalid-ID-format error before any backend access, hence independently of
backend state and oracle; with a well-formed id and a healthy backend it
fails with collection-not-found when the resolved collection does not exist,
fails with memory-not-found when no row with that id exists in the
collection, and otherwise deletes exactly the rows with that id from that
collection — every other collection's contents unchanged — and returns the
id and collection. -/
theorem forget_memory_spec (cfg : Config) (env : Env) (st : ServerState)
    (args : ForgetArgs) (henv : envOk env) :
    (forgetIdOk args.id = false →
      ∀ (env' : Env) (st' : ServerState),
        forgetCore cfg env' st' args = (.error (.invalidIdFormat args.id), st')) ∧
    (∀ i, args.id = some i → forgetIdOk args.id = true →
      (tableLookup st (getCollectionName args.collection cfg) = none →
        forgetCore cfg env st args =
          (.error (.collectionNotFound (getCollectionName args.collection cfg)), st)) ∧
      (∀ n tbl, getCollectionName args.collection cfg = some n →
        st.db.tables.lookup n = some tbl →
        ((tbl.rows.any fun r => r.id == i) = false →
          forgetCore cfg env st args = (.error (.memoryNotFound i (some n)), st)) ∧
        ((tbl.rows.any fun r => r.id == i) = true →
          forgetCore cfg env st args =
            (.ok (Json.obj [(("id"), Json.str i), (("collection"), Json.str n)]),
             (⟨dbDelete st.db n i, st.held⟩ : ServerState)) ∧
          (dbDelete st.db n i).tables.lookup n =
            some ⟨tbl.dim, tbl.rows.filter (fun r => !(r.id == i))⟩ ∧
          (∀ m, ¬(m = n) →
            (dbDelete st.db n i).tables.lookup m = st.db.tables.lookup m)))) := by
  obtain ⟨hc, hq⟩ := henv
  constructor
  · intro hbad env' st'
    rcases hid : args.id with _ | i
    · unfold forgetCore
      rw [hid]
    · rw [hid] at hbad
      simp only [forgetIdOk, Bool.and_eq_false_iff] at hbad
      have hcondT : (decide (i = "") || !(isValidMemoryId i)) = true := by
        rcases hbad with h | h
        · have : i = "" := by simpa using h
          simp [this]
        · simp [h]
      unfold forgetCore
      rw [hid]
      dsimp only
      rw [hcondT]
      rfl
  · intro i hid hok
    rw [hid] at hok
    simp only [forgetIdOk, Bool.and_eq_true, Bool.not_eq_true'] at hok
    have hne : ¬(i = "") := by simpa using hok.1
    have hcondF : (decide (i = "") || !(isValidMemoryId i)) = false := by
      simp [hne, hok.2]
    have heval := forgetCore_eval cfg env st args i hid hcondF hc hq
    constructor
    · intro hnone
      rw [heval]
      rcases hn : getCollectionName args.collection cfg with _ | n
      · rfl
      · unfold tableLookup at hnone
        rw [hn] at hnone
        dsimp only at hnone ⊢
        rw [hnone]
    · intro n tbl hn hl
      rw [hn] at heval
      dsimp only at heval
      rw [hl] at heval
      dsimp only at heval
      constructor
      · intro hany
        rw [heval, hany]
        rfl
      · intro hany
        rw [hany] at heval
        refine ⟨by rw [heval]; rfl, ?_, ?_⟩
        · exact lookup_adjust_self st.db.tables
            (fun t => ⟨t.dim, t.rows.filter (fun r => !(r.id == i))⟩) n tbl hl
        · intro m hm
          exact lookup_adjust_other st.db.tables
            (fun t => ⟨t.dim, t.rows.filter (fun r => !(r.id == i))⟩) n m hm

/-- C2 witness: concrete forget calls hitting each branch — malformed id,
missing collection, missing memory, and a successful delete. -/
theorem forget_memory_spec_witness :
    (forgetIdOk (some ("bad")) = false ∧
      forgetCore testCfg testEnv testState ⟨some ("bad"), none⟩ =
        (.error (.invalidIdFormat (some ("bad"))), testState)) ∧
    (tableLookup testState (some ("nope")) = none ∧
      forgetCore testCfg testEnv testState ⟨some ("mem_1_a"), some ("nope")⟩ =
        (.error (.collectionNotFound (some ("nope"))), testState)) ∧
    (forgetCore testCfg testEnv testState ⟨some ("mem_9_z"), none⟩ =
        (.error (.memoryNotFound ("mem_9_z") (some ("memories"))), testState)) ∧
    (forgetCore testCfg testEnv testState ⟨some ("mem_1_a"), none⟩ =
        (.ok (Json.obj [(("id"), Json.str ("mem_1_a")),
                        (("collection"), Json.str ("memories"))]),
         (⟨dbDelete testState.db ("memories") ("mem_1_a"),
           testState.held⟩ : ServerState))) := by
  have henv : envOk testEnv := ⟨rfl, fun _ => rfl⟩
  refine ⟨⟨rfl, ?_⟩, ⟨rfl, ?_⟩, ?_, ?_⟩
  · exact (forget_memory_spec testCfg testEnv testState
      ⟨some ("bad"), none⟩ henv).1 rfl testEnv testState
  · exact ((forget_memory_spec testCfg testEnv testState
      ⟨some ("mem_1_a"), some ("nope")⟩ henv).2 ("mem_1_a") rfl rfl).1 rfl
  · exact ((((forget_memory_spec testCfg testEnv testState
      ⟨some ("mem_9_z"), none⟩ henv).2 ("mem_9_z") rfl rfl).2
      ("memories") ⟨768, [testRow]⟩ rfl rfl).1) rfl
  · exact ((((forget_memory_spec testCfg testEnv testState
      ⟨some ("mem_1_a"), none⟩ henv).2 ("mem_1_a") rfl rfl).2
      ("memories") ⟨768, [testRow]⟩ rfl rfl).2 rfl).1

/-- C8: the Schema Provisioner rejects a missing or empty collection name
with the name-required error and, on the relational backend, rejects a name
that does not match the identifier pattern (letter or underscore, then
letters, digits or underscores) with the invalid-name error; in every case
the failure happens for every oracle and backend state, and the state is
returned untouched — before any backend structure is checked or created. -/
theorem provision_name_validation (cfg : Config) (env : Env) (st : ServerState)
    (name : String) (hinv : isValidTableName name = false) (hne : ¬(name = "")) :
    ensureTable cfg env st none = (.error .tableNameRequired, st) ∧
    ensureTable cfg env st (some ("")) = (.error .tableNameRequired, st) ∧
    ensureTable cfg env st (some name) = (.error .invalidTableName, st) ∧
    (∀ (mcfg : Config) (menv : MEnv) (mst : MilvusState),
      ensureCollection mcfg menv mst none = (.error .collectionRequired, mst) ∧
      ensureCollection mcfg menv mst (some ("")) = (.error .collectionRequired, mst)) := by
  refine ⟨rfl, rfl, ?_, fun mcfg menv mst => ⟨rfl, rfl⟩⟩
  unfold ensureTable
  dsimp only
  rw [if_neg hne, hinv]
  rfl

/-- C8 witness: the concrete name `1bad` (starting with a digit) is rejected
with the invalid-name error, the state untouched. -/
theorem provision_name_validation_witness :
    isValidTableName ("1bad") = false ∧ ¬(("1bad") = "") ∧
    ensureTable testCfg testEnv testState (some ("1bad")) =
      (.error .invalidTableName, testState) := by
  refine ⟨rfl, by decide, ?_⟩
  exact (provision_name_validation testCfg testEnv testState ("1bad")
    rfl (by decide)).2.2.1

theorem forgetCore_names (cfg : Config) (env : Env) (st : ServerState)
    (args : ForgetArgs) :
    ((forgetCore cfg env st args).2).db.tables.map Prod.fst
      = st.db.tables.map Prod.fst := by
  unfold forgetCore withClient runQuery
  dsimp only
  repeat' split <;> try rfl
  all_goals
    simp only [dbDelete]
    exact map_fst_keep _ _ (fun p => by split <;> rfl)

theorem ensureCollection_names_of_has (cfg : Config) (env : MEnv) (st : MilvusState)
    (n : String) (h : (st.collections.lookup n).isSome = true) :
    ((ensureCollection cfg env st (some n)).2).collections.map Prod.fst
      = st.collections.map Prod.fst := by
  unfold ensureCollection mrunQuery mLoad
  dsimp only
  repeat' split <;> try rfl
  all_goals
    first
      | exact map_fst_keep _ _ (fun p => by split <;> rfl)
      | simp_all

theorem milvusForgetCore_names (cfg : Config) (env : MEnv) (st : MilvusState)
    (args : ForgetArgs) :
    ((milvusForgetCore cfg env st args).2).collections.map Prod.fst
      = st.collections.map Prod.fst := by
  unfold milvusForgetCore mrunQuery
  dsimp only
  split
  · rfl
  · split
    · rfl
    · split
      · split
        · rfl
        · split
          · rename_i hS
            split
            all_goals rename_i heq
            · have hnames := ensureCollection_names_of_has cfg env st _ hS
              rw [heq] at hnames
              exact hnames
            · have hnames := ensureCollection_names_of_has cfg env st _ hS
              rw [heq] at hnames
              split
              · split
                · split
                  · split
                    · simp only [mDelete]
                      rw [map_fst_keep _ _ (fun p => by split <;> rfl)]
                      exact hnames
                    · exact hnames
                  · exact hnames
                · exact hnames
              · exact hnames
          · rfl
      · rfl

/-- C10: forget never provisions storage: on both backends, for every oracle
outcome and every state, the set of existing table/collection names after a
forget call equals the set before it; with a healthy backend, forget against
a collection that does not exist fails with collection-not-found rather than
creating it — while search, which runs the provisioner first, leaves the
target collection existing. -/
theorem forget_never_provisions (cfg : Config) (env : Env) (st : ServerState)
    (args : ForgetArgs) (menv : MEnv) (mst : MilvusState) :
    ((forgetMemory cfg env st args).2).db.tables.map Prod.fst
      = st.db.tables.map Prod.fst ∧
    ((milvusForgetCore cfg menv mst args).2).collections.map Prod.fst
      = mst.collections.map Prod.fst ∧
    (∀ i n, args.id = some i → forgetIdOk args.id = true → envOk env →
      getCollectionName args.collection cfg = some n →
      st.db.tables.lookup n = none →
      forgetCore cfg env st args = (.error (.collectionNotFound (some n)), st)) ∧
    (∀ (name : String) (qa : SearchArgs), envOk env →
      getCollectionName qa.collection cfg = some name →
      isValidTableName name = true →
      (cfg.dims.lookup cfg.embeddingModel).isSome = true →
      resolveMode qa.mode = "fulltext" →
      ∃ st1, searchCore cfg env st qa =
        (.ok (searchResultJson qa.query ("fulltext")
          (fulltextMemories env.jsonParse
            (env.fulltextRows (toTsQuery qa.query) (resolveLimit qa.limit)))), st1) ∧
        (st1.db.tables.lookup name).isSome = true) := by
  refine ⟨?_, milvusForgetCore_names cfg menv mst args, ?_, ?_⟩
  · rw [forgetMemory, envelope_snd]
    exact forgetCore_names cfg env st args
  · intro i n hid hok henv hn hl
    obtain ⟨hc, hq⟩ := henv
    rw [hid] at hok
    simp only [forgetIdOk, Bool.and_eq_true, Bool.not_eq_true'] at hok
    have hne : ¬(i = "") := by simpa using hok.1
    have hcondF : (decide (i = "") || !(isValidMemoryId i)) = false := by
      simp [hne, hok.2]
    rw [forgetCore_eval cfg env st args i hid hcondF hc hq, hn]
    dsimp only
    rw [hl]
  · intro name qa henv hname hvalid hdim hmode
    obtain ⟨st1, hrun, hlk, _⟩ :=
      searchCore_fulltext_run cfg env st qa name henv hname hvalid hdim hmode
    exact ⟨st1, hrun, hlk⟩

/-- C10 witness: a concrete forget against an empty backend fails with
collection-not-found and leaves the (empty) table set unchanged, while a
concrete search against the same state leaves the collection provisioned. -/
theorem forget_never_provisions_witness :
    (forgetCore testCfg testEnv emptyState ⟨some ("mem_1_a"), none⟩ =
      (.error (.collectionNotFound (some ("memories"))), emptyState)) ∧
    (∃ st1, searchCore testCfg testEnv emptyState
        ⟨("hi"), some ("fulltext"), none, none⟩ =
      (.ok (searchResultJson ("hi") ("fulltext")
        (fulltextMemories testEnv.jsonParse
          (testEnv.fulltextRows (toTsQuery ("hi")) (resolveLimit none)))), st1) ∧
      (st1.db.tables.lookup ("memories")).isSome = true) := by
  have h := forget_never_provisions testCfg testEnv emptyState
    ⟨some ("mem_1_a"), none⟩ testMEnv testMState
  exact ⟨h.2.2.1 ("mem_1_a") ("memories") rfl rfl ⟨rfl, fun _ => rfl⟩ rfl rfl,
    h.2.2.2 ("memories") ⟨("hi"), some ("fulltext"), none, none⟩
      ⟨rfl, fun _ => rfl⟩ rfl rfl rfl rfl⟩

theorem parseRowMetadata_valCell (jp : String → Option Json) (m : Json)
    (ht : m.truthy = true) (hs : m.isStr = false) :
    parseRowMetadata jp (.valCell m) = m := by
  cases m <;> simp_all [parseRowMetadata, Json.truthy, Json.isStr]

theorem storeCore_run (cfg : Config) (env : Env) (st : ServerState)
    (args : StoreArgs) (name : String) (emb : List ℚ)
    (henv : envOk env) (hname : getCollectionName args.collection cfg = some name)
    (hvalid : isValidTableName name = true)
    (hdim : (cfg.dims.lookup cfg.embeddingModel).isSome = true)
    (hemb : env.embed = .ok emb) :
    ∃ stE, ensureTable cfg env st (some name) = (.ok (), stE) ∧
      (stE.db.tables.lookup name).isSome = true ∧
      storeCore cfg env st args =
        (.ok (Json.obj [
          (("id"), Json.str (genId env)),
          (("collection"), Json.str name),
          (("content_length"), Json.num (args.content.length : ℚ)),
          (("embedding_dimensions"), Json.num (emb.length : ℚ)),
          (("embedding_model"), Json.str cfg.embeddingModel),
          (("metadata"), jsOrElse args.metadata emptyObj),
          (("created_at"), Json.num (env.now : ℚ))]),
         (⟨dbInsert stE.db name
            ⟨genId env, args.content, emb,
             .valCell (jsOrElse args.metadata emptyObj), env.now⟩,
           stE.held⟩ : ServerState)) := by
  obtain ⟨stE, hE, hlk, hheld⟩ := ensureTable_envOk cfg env st name henv hvalid hdim
  obtain ⟨hc, hq⟩ := henv
  refine ⟨stE, hE, hlk, ?_⟩
  unfold storeCore
  rw [hname]
  dsimp only
  rw [hE]
  dsimp only
  unfold generateEmbedding
  rw [hemb]
  dsimp only
  unfold withClient runQuery
  rw [hc, hq QSite.insertRow]
  rfl

theorem lookup_dbInsert_self (db : DB) (name : String) (row : Row) (tbl : PGTable)
    (h : db.tables.lookup name = some tbl) :
    (dbInsert db name row).tables.lookup name = some ⟨tbl.dim, tbl.rows ++ [row]⟩ := by
  unfold dbInsert
  exact lookup_adjust_self db.tables (fun t => ⟨t.dim, t.rows ++ [row]⟩) name tbl h

/-- C5 (amended): with a healthy backend, metadata passed to store that is a
JS-truthy non-string JSON value (every object and array, nonzero numbers,
`true`) is stored verbatim and returned deep-equal by the search-result
normalization of any search that returns that memory; omitted metadata — and
likewise JS-falsy metadata such as `null` — is stored and returned as the
empty object. -/
theorem metadata_roundtrip (cfg : Config) (env : Env) (st : ServerState)
    (args : StoreArgs) (name : String) (emb : List ℚ)
    (henv : envOk env) (hname : getCollectionName args.collection cfg = some name)
    (hvalid : isValidTableName name = true)
    (hdim : (cfg.dims.lookup cfg.embeddingModel).isSome = true)
    (hemb : env.embed = .ok emb) :
    (∀ m, args.metadata = some m → m.truthy = true → m.isStr = false →
      ∃ p st', storeCore cfg env st args = (.ok p, st') ∧
        ∃ tbl, st'.db.tables.lookup name = some tbl ∧
          (⟨genId env, args.content, emb, .valCell m, env.now⟩ : Row) ∈ tbl.rows ∧
          (∀ (jp : String → Option Json) (sim : ℚ),
            (buildMemory jp
              ⟨genId env, args.content, emb, .valCell m, env.now⟩ sim).metadata = m) ∧
          (∀ (jp : String → Option Json) (rows : List (Row × ℚ)) (d : ℚ),
            ((⟨genId env, args.content, emb, .valCell m, env.now⟩ : Row), d) ∈ rows →
            ∃ mem ∈ semanticMemories jp rows,
              mem.id = genId env ∧ mem.metadata = m)) ∧
    (args.metadata = none →
      ∃ p st', storeCore cfg env st args = (.ok p, st') ∧
        ∃ tbl, st'.db.tables.lookup name = some tbl ∧
          (⟨genId env, args.content, emb, .valCell emptyObj, env.now⟩ : Row) ∈ tbl.rows ∧
          (∀ (jp : String → Option Json) (sim : ℚ),
            (buildMemory jp
              ⟨genId env, args.content, emb, .valCell emptyObj, env.now⟩ sim).metadata
              = emptyObj)) := by
  obtain ⟨stE, hE, hlk, hrun⟩ := storeCore_run cfg env st args name emb henv hname hvalid hdim hemb
  obtain ⟨tblE, htbl⟩ := Option.isSome_iff_exists.mp hlk
  constructor
  · intro m hm ht hs
    have hj : jsOrElse args.metadata emptyObj = m := by
      rw [hm]
      simp [jsOrElse, ht]
    rw [hj] at hrun
    refine ⟨_, _, hrun, ⟨tblE.dim, tblE.rows ++
      [⟨genId env, args.content, emb, .valCell m, env.now⟩]⟩,
      lookup_dbInsert_self stE.db name _ tblE htbl, by simp, ?_, ?_⟩
    · intro jp sim
      show parseRowMetadata jp (.valCell m) = m
      exact parseRowMetadata_valCell jp m ht hs
    · intro jp rows d hmem
      refine ⟨buildMemory jp
        ⟨genId env, args.content, emb, .valCell m, env.now⟩
        (similarityOfDistance d), ?_, rfl, ?_⟩
      · exact List.mem_map_of_mem
          (fun rd => buildMemory jp rd.1 (similarityOfDistance rd.2)) hmem
      · show parseRowMetadata jp (.valCell m) = m
        exact parseRowMetadata_valCell jp m ht hs
  · intro hm
    have hj : jsOrElse args.metadata emptyObj = emptyObj := by
      rw [hm]
      rfl
    rw [hj] at hrun
    refine ⟨_, _, hrun, ⟨tblE.dim, tblE.rows ++
      [⟨genId env, args.content, emb, .valCell emptyObj, env.now⟩]⟩,
      lookup_dbInsert_self stE.db name _ tblE htbl, by simp, ?_⟩
    intro jp sim
    show parseRowMetadata jp (.valCell emptyObj) = emptyObj
    exact parseRowMetadata_valCell jp emptyObj rfl rfl

/-- C5 counterexample: storing metadata `null` succeeds but stores and
returns the empty object — `args.metadata || \x7b\x7d` discards the JS-falsy
value `null` — so the returned metadata is not deep-equal to the stored
argument. -/
theorem metadata_roundtrip_counterexample :
    storeCore testCfg testEnv emptyState ⟨("hello"), some Json.null, none⟩ =
      (.ok (Json.obj [
        (("id"), Json.str (genId testEnv)),
        (("collection"), Json.str ("memories")),
        (("content_length"), Json.num ((("hello") : String).length : ℚ)),
        (("embedding_dimensions"), Json.num ((([1] : List ℚ)).length : ℚ)),
        (("embedding_model"), Json.str ("google/text-embedding-004")),
        (("metadata"), emptyObj),
        (("created_at"), Json.num ((7 : ℕ) : ℚ))]),
       (⟨⟨[(("memories"),
          ⟨768, [⟨genId testEnv, ("hello"), [1], .valCell emptyObj, 7⟩]⟩)]⟩,
         0⟩ : ServerState)) ∧
    (buildMemory (fun _ => none)
      ⟨genId testEnv, ("hello"), [1], .valCell emptyObj, 7⟩ 1).metadata = emptyObj ∧
    ¬(emptyObj = Json.null) := by
  refine ⟨?_, rfl, fun h => Json.noConfusion h⟩
  rfl

/-- C5 witness: a concrete truthy, non-string metadata value (an array with
one number) stored against an empty backend round-trips deep-equal through
the search-result normalization. -/
theorem metadata_roundtrip_witness :
    (envOk testEnv ∧ getCollectionName none testCfg = some ("memories") ∧
     isValidTableName ("memories") = true ∧
     (testCfg.dims.lookup testCfg.embeddingModel).isSome = true ∧
     testEnv.embed = .ok [1] ∧
     (Json.arr [Json.num 4]).truthy = true ∧
     (Json.arr [Json.num 4]).isStr = false) ∧
    (∃ p st', storeCore testCfg testEnv emptyState
        ⟨("hello"), some (Json.arr [Json.num 4]), none⟩ = (.ok p, st') ∧
      ∃ tbl, st'.db.tables.lookup ("memories") = some tbl ∧
        (⟨genId testEnv, ("hello"), [1],
          .valCell (Json.arr [Json.num 4]), testEnv.now⟩ : Row) ∈ tbl.rows ∧
        (∀ (jp : String → Option Json) (sim : ℚ),
          (buildMemory jp ⟨genId testEnv, ("hello"), [1],
            .valCell (Json.arr [Json.num 4]), testEnv.now⟩ sim).metadata
            = Json.arr [Json.num 4]) ∧
        (∀ (jp : String → Option Json) (rows : List (Row × ℚ)) (d : ℚ),
          ((⟨genId testEnv, ("hello"), [1],
            .valCell (Json.arr [Json.num 4]), testEnv.now⟩ : Row), d) ∈ rows →
          ∃ mem ∈ semanticMemories jp rows,
            mem.id = genId testEnv ∧ mem.metadata = Json.arr [Json.num 4])) := by
  refine ⟨⟨⟨rfl, fun _ => rfl⟩, rfl, rfl, rfl, rfl, rfl, rfl⟩, ?_⟩
  exact (metadata_roundtrip testCfg testEnv emptyState
    ⟨("hello"), some (Json.arr [Json.num 4]), none⟩ ("memories") [1]
    ⟨rfl, fun _ => rfl⟩ rfl rfl rfl rfl).1 (Json.arr [Json.num 4]) rfl rfl rfl
